import Mathlib

/-!
Verification of the matching core of a demand/supply intent-matching backend.

The Python services under `backend/app/services` are shallowly embedded here:
numeric scores (Python floats) are modelled as exact rationals `ℚ`, dictionaries
holding intent rows become structures with `Option`-valued fields (`none` models
a missing key / `null`), Python truthiness of strings and lists is made explicit,
and the per-candidate `try/except: continue` blocks become `Except`-valued
candidate scorers whose errors are skipped.  The embedding-similarity function
of `embedding_service.py` computes a real square root and is embedded over `ℝ`;
the strategy pipelines take the similarity function (and, for the advanced
strategy, the component scorer) as a parameter, so all pipeline theorems hold
for every possible scorer outcome.
-/

namespace ProApp

/-- Python truthiness of an optional string (`None` and `""` are falsy). -/
def truthy : Option String → Bool
  | none => false
  | some s => !s.isEmpty

/-- Lowercase every character of a string (Python `str.lower` on ASCII). -/
def lowerStr (s : String) : String := ⟨s.data.map Char.toLower⟩

/-- Case-sensitive substring test on character lists (Python `pat in s`). -/
def substrB (pat l : List Char) : Bool := l.tails.any (fun t => pat.isPrefixOf t)

/-- Substring test after lowercasing both sides. -/
def substrCI (pat s : String) : Bool :=
  substrB (pat.data.map Char.toLower) (s.data.map Char.toLower)

/-- Case-insensitive test that `p` (given lowercase) starts the list `l`. -/
def isPrefixCI : List Char → List Char → Bool
  | [], _ => true
  | _ :: _, [] => false
  | p :: ps, c :: cs => (p == c.toLower) && isPrefixCI ps cs

/-- Round a rational to the nearest integer, halves to even
(idealisation of Python 3 `round` on floats). -/
def pyRoundInt (q : ℚ) : ℤ :=
  let f : ℤ := ⌊q⌋
  let r : ℚ := q - f
  if r < 1/2 then f
  else if 1/2 < r then f + 1
  else if f % 2 = 0 then f else f + 1

/-- Python `round(x, 3)` on the rational model. -/
def round3 (q : ℚ) : ℚ := (pyRoundInt (q * 1000) : ℚ) / 1000

/-- Python `round(x, 2)` on the rational model. -/
def round2 (q : ℚ) : ℚ := (pyRoundInt (q * 100) : ℚ) / 100

/-! ## Price parsing (`AdvancedMatchingService._extract_price_value`)

`re.sub(r'[₹$£€,]|lakh|lac|k|thousand', '', price_str, flags=re.IGNORECASE)`
is a single left-to-right pass trying the alternatives in order at each
position; the result is bound back to `price_str`, and the later unit-word
checks run on that stripped string. -/

/-- Characters removed by the character class `[₹$£€,]`. -/
def currencyChars : List Char := ['₹', '$', '£', '€', ',']

/-- The `re.sub` pass of `_extract_price_value`: removes currency characters
and the words lakh/lac/k/thousand (case-insensitively), scanning left to
right with the regex's alternative order. -/
def stripPrice : List Char → List Char
  | [] => []
  | c :: rest =>
    if currencyChars.contains c then stripPrice rest
    else if isPrefixCI ['l','a','k','h'] (c :: rest) then stripPrice (rest.drop 3)
    else if isPrefixCI ['l','a','c'] (c :: rest) then stripPrice (rest.drop 2)
    else if c.toLower == 'k' then stripPrice rest
    else if isPrefixCI ['t','h','o','u','s','a','n','d'] (c :: rest) then stripPrice (rest.drop 7)
    else c :: stripPrice rest
termination_by l => l.length
decreasing_by
  all_goals simp [List.length_drop]
  all_goals omega

/-- Numeric value of a digit list (most significant first). -/
def digitsVal (l : List Char) : ℕ := l.foldl (fun acc c => acc * 10 + (c.toNat - 48)) 0

/-- First match of `\d+\.?\d*` in a character list, as a rational
(Python `re.findall(r'\d+\.?\d*', s)[0]` followed by `float`). -/
def firstNumber : List Char → Option ℚ
  | [] => none
  | c :: rest =>
    if c.isDigit then
      let intPart := (c :: rest).takeWhile Char.isDigit
      let afterInt := (c :: rest).dropWhile Char.isDigit
      let fracPart := match afterInt with
        | '.' :: r2 => r2.takeWhile Char.isDigit
        | _ => []
      some ((digitsVal intPart : ℚ) + (digitsVal fracPart : ℚ) / (10 : ℚ) ^ fracPart.length)
    else firstNumber rest

/-- `AdvancedMatchingService._extract_price_value`: strip currency symbols and
unit words, take the first numeric token, then scale by 100000 (resp. 1000) if
the *stripped* string still mentions lakh/lac (resp. k/thousand). -/
def extract_price_value (s : String) : Option ℚ :=
  let stripped := stripPrice s.data
  match firstNumber stripped with
  | none => none
  | some v =>
    let low := stripped.map Char.toLower
    if substrB ['l','a','k','h'] low || substrB ['l','a','c'] low then some (v * 100000)
    else if substrB ['k'] low || substrB ['t','h','o','u','s','a','n','d'] low then some (v * 1000)
    else some v

/-! ## Data model

Intent rows as fetched from the `intents` table (joined with `users`).
`Option` marks fields that can be missing / `null` in a row or parsed-data
dictionary; Python truthiness (`None` and `""`/`[]` falsy) is applied
explicitly at each use site, mirroring the source. -/

/-- The `parsed_data` JSON dictionary attached to an intent. -/
structure ParsedData where
  intent : Option String := none
  category : Option String := none
  sub_category : Option String := none
  brand : Option String := none
  model : Option String := none
  year : Option String := none
  fuel_type : Option String := none
  price : Option String := none
  budget : Option String := none
  location : Option String := none
  specs : List String := []
  keywords : List String := []
  locations : List String := []
  prices : List String := []
  user_features : Option (List ℚ) := none
  business_features : Option (List ℚ) := none
  embedding : Option (List ℚ) := none
deriving DecidableEq

/-- An intent row (with the joined user's display name). -/
structure Intent where
  intent_id : String
  user_id : Option String := none
  post_type : String
  category : String
  raw_query : String := ""
  location_name : Option String := none
  location : Option String := none
  embedding : Option (List ℚ) := none
  parsed_data : Option ParsedData := none
  is_active : Bool := true
  created_at : String := ""
  users_name : Option String := none
deriving DecidableEq

/-- The normalized parameter dictionary built by
`AdvancedMatchingService._extract_parameters`.  The `intent` key is always
set to a non-empty verb by the fallback chain; the rest may be missing. -/
structure Params where
  intent : String := "looking"
  category : Option String := none
  sub_category : Option String := none
  brand : Option String := none
  model : Option String := none
  year : Option String := none
  fuel_type : Option String := none
  price : Option String := none
  budget : Option String := none
  location : Option String := none
deriving DecidableEq

/-- Keyword table of `AdvancedMatchingService._extract_intent_from_query`,
in source (insertion) order. -/
def intentKeywordTable : List (String × List String) :=
  [("buy", ["buy", "buying", "purchase", "looking for", "want to buy", "need"]),
   ("sell", ["sell", "selling", "sale", "for sale", "offering"]),
   ("rent", ["rent", "renting", "lease", "for rent"]),
   ("rent_out", ["rent out", "renting out", "available for rent"]),
   ("looking", ["looking", "searching", "seeking", "find"]),
   ("offering", ["offering", "providing", "available"])]

/-- `AdvancedMatchingService._extract_intent_from_query`: first intent verb in
table order with a keyword occurring in the lowercased query; default
`"looking"`. -/
def extract_intent_from_query (q : String) : String :=
  let ql := (lowerStr q).data
  match intentKeywordTable.find? (fun kw => kw.2.any (fun k => substrB k.data ql)) with
  | some kw => kw.1
  | none => "looking"

/-- `AdvancedMatchingService.INTENT_INVERSIONS` (buy↔sell etc.). -/
def INTENT_INVERSIONS : List (String × String) :=
  [("buy", "sell"), ("sell", "buy"), ("rent", "rent_out"), ("rent_out", "rent"),
   ("looking", "offering"), ("offering", "looking"), ("need", "provide"),
   ("provide", "need"), ("want", "have"), ("have", "want")]

/-- `INTENT_INVERSIONS.get(v, v)`. -/
def invertIntent (v : String) : String :=
  ((INTENT_INVERSIONS.find? (fun p => p.1 == v)).map (fun p => p.2)).getD v

/-- Python `x or y` on optional strings: the first operand if truthy,
otherwise the second operand unchanged. -/
def pyOrStr (a b : Option String) : Option String :=
  match a with
  | some s => if s.isEmpty then b else some s
  | none => b

/-- `AdvancedMatchingService._extract_parameters`: copy the parsed-data keys,
then overwrite `intent`/`category`/`location` with truthy-or fallbacks to the
raw query's detected verb, the row's category, and the row's location name. -/
def extract_parameters (d : Intent) : Params :=
  let base : Params :=
    match d.parsed_data with
    | some p =>
      { intent := "", category := p.category, sub_category := p.sub_category,
        brand := p.brand, model := p.model, year := p.year,
        fuel_type := p.fuel_type, price := p.price, budget := p.budget,
        location := p.location }
    | none => { intent := "" }
  let intentV : String :=
    match d.parsed_data.bind (fun p => p.intent) with
    | some s => if s.isEmpty then extract_intent_from_query d.raw_query else s
    | none => extract_intent_from_query d.raw_query
  let categoryV : Option String :=
    match base.category with
    | some s => if s.isEmpty then some d.category else some s
    | none => some d.category
  let locationV : Option String :=
    match base.location with
    | some s => if s.isEmpty then d.location_name else some s
    | none => d.location_name
  { base with intent := intentV, category := categoryV, location := locationV }

/-! ## Parameter overlap (`AdvancedMatchingService._calculate_parameter_overlap`) -/

/-- The fixed per-attribute weight table of `_calculate_parameter_overlap`,
in source order. -/
def param_weights : List (String × ℚ) :=
  [("category", 3/10), ("sub_category", 1/5), ("brand", 1/5),
   ("model", 3/20), ("year", 1/10), ("fuel_type", 1/20)]

/-- Dictionary-style attribute lookup on a parameter set
(`params.get(param)` for the keys iterated by the overlap scorer). -/
def Params.getAttr (p : Params) : String → Option String
  | "category" => p.category
  | "sub_category" => p.sub_category
  | "brand" => p.brand
  | "model" => p.model
  | "year" => p.year
  | "fuel_type" => p.fuel_type
  | _ => none

/-- Python `int(s)`: optional surrounding spaces, optional sign, digits. -/
def parsePyInt (s : String) : Option ℤ :=
  let t := ((s.data.dropWhile (· == ' ')).reverse.dropWhile (· == ' ')).reverse
  match t with
  | '-' :: ds => if !ds.isEmpty && ds.all Char.isDigit then some (-(digitsVal ds : ℤ)) else none
  | '+' :: ds => if !ds.isEmpty && ds.all Char.isDigit then some (digitsVal ds : ℤ) else none
  | ds => if !ds.isEmpty && ds.all Char.isDigit then some (digitsVal ds : ℤ) else none

/-- Weight awarded for one attribute pair: full weight on exact
case-insensitive match; for `year`, 80% on ±1 numeric difference (0 when the
values fail to parse); otherwise 60% on substring containment either way. -/
def matchAward (key : String) (w : ℚ) (uv mv : String) : ℚ :=
  if lowerStr uv = lowerStr mv then w
  else if key = "year" then
    match parsePyInt uv, parsePyInt mv with
    | some a, some b => if (a - b).natAbs ≤ 1 then w * (8/10) else 0
    | _, _ => 0
  else if substrCI uv mv || substrCI mv uv then w * (6/10)
  else 0

/-- One iteration of the overlap loop: attributes truthy on both sides add
their weight to the considered total and their award to the overlap sum. -/
def overlapStep (up mp : Params) (acc : ℚ × ℚ) (pw : String × ℚ) : ℚ × ℚ :=
  let uv := up.getAttr pw.1
  let mv := mp.getAttr pw.1
  if truthy uv && truthy mv then
    (acc.1 + matchAward pw.1 pw.2 (uv.getD "") (mv.getD ""), acc.2 + pw.2)
  else acc

/-- `AdvancedMatchingService._calculate_parameter_overlap`. -/
def calculate_parameter_overlap (up mp : Params) : ℚ :=
  let t := param_weights.foldl (overlapStep up mp) (0, 0)
  if t.2 > 0 then t.1 / t.2 else 1/2

/-! ## Price tolerance (`AdvancedMatchingService._calculate_price_tolerance`) -/

/-- The numeric core of `_calculate_price_tolerance`, applied to two parsed
prices: linear decay `1 − diff/tolerance` inside the ±10% band of the query
price, otherwise `max(0, 1 − diff/(0.5·query price))`. -/
def priceToleranceCore (u m : ℚ) : ℚ :=
  let d := |u - m|
  let tol := u * (1/10)
  if d ≤ tol then 1 - d / tol
  else max 0 (1 - d / (u * (1/2)))

/-- `AdvancedMatchingService._calculate_price_tolerance`: resolve
price-or-budget on each side, return the neutral 0.5 when either side is
missing, unparseable, or parses to the falsy 0.0. -/
def calculate_price_tolerance (up mp : Params) : ℚ :=
  match pyOrStr up.price up.budget, pyOrStr mp.price mp.budget with
  | some us, some ms =>
    if us.isEmpty || ms.isEmpty then 1/2
    else
      match extract_price_value us, extract_price_value ms with
      | some u, some m => if u ≠ 0 ∧ m ≠ 0 then priceToleranceCore u m else 1/2
      | _, _ => 1/2
  | _, _ => 1/2

/-! ## Embedding similarity (`EmbeddingService.compute_similarity`)

The source has two branches: a numpy branch (only `ImportError` is caught, so
a numpy `ValueError` on mismatched 1-D shapes propagates) and a pure-Python
fallback that checks lengths first.  The branch taken is a property of the
runtime environment, modelled by the `numpyAvailable` flag.  The square
root forces this part of the embedding into `ℝ`. -/

/-- Dot product (`np.dot` / `sum(a*b for a, b in zip(...))`). -/
def dotQ : List ℚ → List ℚ → ℚ
  | a :: u, b :: v => a * b + dotQ u v
  | _, _ => 0

/-- Sum of squares of a vector; `‖u‖ = √(normSq u)`. -/
def normSq : List ℚ → ℚ
  | [] => 0
  | a :: u => a * a + normSq u

/-- Cosine similarity `dot(u,v)/(‖u‖·‖v‖)` over the reals. -/
noncomputable def cosineSim (u v : List ℚ) : ℝ :=
  (dotQ u v : ℝ) / (Real.sqrt (normSq u) * Real.sqrt (normSq v))

/-- The numpy branch of `compute_similarity`: `np.dot` raises on 1-D shape
mismatch; otherwise zero norms (the source compares `‖u‖ = 0`, equivalent to
`normSq u = 0`, see `sqrt_normSq_eq_zero`) give 0.0, else the cosine. -/
noncomputable def compute_similarity_numpy (u v : List ℚ) : Except String ℝ :=
  if u.length ≠ v.length then .error "shapes not aligned"
  else if normSq u = 0 ∨ normSq v = 0 then .ok 0
  else .ok (cosineSim u v)

/-- The pure-Python fallback branch of `compute_similarity`: mismatched
lengths return 0.0, zero norms return 0.0, else the cosine. -/
noncomputable def compute_similarity_fb (u v : List ℚ) : ℝ :=
  if u.length ≠ v.length then 0
  else if normSq u = 0 ∨ normSq v = 0 then 0
  else cosineSim u v

/-- `EmbeddingService.compute_similarity`, branching on numpy availability. -/
noncomputable def compute_similarity (numpyAvailable : Bool) (u v : List ℚ) :
    Except String ℝ :=
  if numpyAvailable then compute_similarity_numpy u v
  else .ok (compute_similarity_fb u v)

/-! ## Stable descending sort (Python `list.sort(key=..., reverse=True)`) -/

/-- Insert `a` into `l` before the first element whose key is not larger,
keeping earlier-inserted equal keys after `a`. -/
def orderedInsertDesc {α : Type} (key : α → ℚ) (a : α) : List α → List α
  | [] => [a]
  | b :: l => if key b ≤ key a then a :: b :: l else b :: orderedInsertDesc key a l

/-- Stable sort by a rational key, descending (insertion sort). -/
def sortByKeyDesc {α : Type} (key : α → ℚ) (l : List α) : List α :=
  l.foldr (orderedInsertDesc key) []

/-! ## Basic strategy (`MatchingService.find_matches`) -/

/-- Opposite post type: `'supply' if post_type == 'demand' else 'demand'`. -/
def oppositePostType (post_type : String) : String :=
  if post_type == "demand" then "supply" else "demand"

/-- Embedding of an intent row as resolved by both strategies: the row's
`embedding` field if truthy, else the parsed-data `embedding`, else empty. -/
def resolveEmbedding (c : Intent) : List ℚ :=
  let e := c.embedding.getD []
  if e.isEmpty then
    match c.parsed_data with
    | some p => p.embedding.getD []
    | none => []
  else e

/-- A result row of the basic strategy. -/
structure BasicMatch where
  intent_id : String
  user_name : String
  location_name : String
  raw_query : String
  category : String
  post_type : String
  similarity : ℚ
  distance_km : ℚ
  combined_score : ℚ
  created_at : String
deriving DecidableEq

/-- The body of the basic strategy's per-candidate loop: default similarity
0.5 unless both sides have a non-empty embedding (then the similarity
function runs and may raise); name-based location score (default 0.5,
exact 1.0, substring 0.7, else 0.2); combined = 0.7·similarity +
0.3·location; emit the row only when combined > 0.3. -/
def scoreBasicCandidate (sim : List ℚ → List ℚ → Except String ℚ)
    (userEmb : List ℚ) (userLocName : String) (c : Intent) :
    Except String (Option BasicMatch) := do
  let matchEmb := resolveEmbedding c
  let similarity : ℚ ←
    if !userEmb.isEmpty && !matchEmb.isEmpty then sim userEmb matchEmb
    else pure (1/2)
  let locPair : ℚ × ℚ :=
    if !userLocName.isEmpty && truthy c.location_name then
      let ul := lowerStr userLocName
      let ml := lowerStr (c.location_name.getD "")
      if ul = ml then (1, 0)
      else if substrB ul.data ml.data || substrB ml.data ul.data then (7/10, 5)
      else (1/5, 20)
    else (1/2, 0)
  let combined := similarity * (7/10) + locPair.1 * (3/10)
  if combined > 3/10 then
    pure (some
      { intent_id := c.intent_id,
        user_name := c.users_name.getD "Unknown",
        location_name := c.location_name.getD "",
        raw_query := c.raw_query,
        category := c.category,
        post_type := c.post_type,
        similarity := round3 similarity,
        distance_km := round2 locPair.2,
        combined_score := round3 combined,
        created_at := c.created_at })
  else
    pure none

/-- `MatchingService.find_matches` on a fetched pool: filter to opposite
post type, same category, active; score each candidate, skipping candidates
whose scoring raised; sort by combined score descending; return the top 10. -/
def find_matches (sim : List ℚ → List ℚ → Except String ℚ)
    (q : Intent) (pool : List Intent) : List BasicMatch :=
  let opp := oppositePostType q.post_type
  let candidates := pool.filter
    (fun c => c.post_type == opp && c.category == q.category && c.is_active)
  let userEmb := resolveEmbedding q
  let userLocName := q.location_name.getD ""
  let scored := candidates.filterMap (fun c =>
    match scoreBasicCandidate sim userEmb userLocName c with
    | .error _ => none
    | .ok r => r)
  (sortByKeyDesc (fun r => r.combined_score) scored).take 10

/-! ## Strategy orchestrator (`intents.get_matches_for_intent`) -/

/-- The endpoint's fallback chain: advanced result if it did not raise, else
the ML result if it did not raise, else the basic result. -/
def getMatchesForIntent {α : Type} (adv ml : Except String (List α))
    (basicRes : List α) : Except String (List α) :=
  match adv with
  | .ok l => .ok l
  | .error _ =>
    match ml with
    | .ok l => .ok l
    | .error _ => .ok basicRes

/-! ## Advanced strategy (`AdvancedMatchingService.find_advanced_matches`)

`_calculate_match_scores` mixes embedding similarity, a (possibly
coordinate-based, transcendental) location score, parameter overlap and
price tolerance; the pipeline theorems hold for every scorer outcome, so the
per-candidate scorer is a parameter returning the four component scores (or
an error, modelling the per-candidate `except: continue`). -/

/-- The four component scores of the advanced strategy. -/
structure AdvScores where
  semantic_similarity : ℚ := 0
  location_proximity : ℚ := 0
  parameter_overlap : ℚ := 0
  price_tolerance : ℚ := 0
deriving DecidableEq

/-- `scores.get(component, 0.0)` for the weighted components. -/
def AdvScores.getComp (s : AdvScores) : String → ℚ
  | "semantic_similarity" => s.semantic_similarity
  | "location_proximity" => s.location_proximity
  | "parameter_overlap" => s.parameter_overlap
  | "price_tolerance" => s.price_tolerance
  | _ => 0

/-- `AdvancedMatchingService.SCORING_WEIGHTS`, in source order. -/
def SCORING_WEIGHTS : List (String × ℚ) :=
  [("semantic_similarity", 2/5), ("location_proximity", 1/5),
   ("parameter_overlap", 3/10), ("price_tolerance", 1/10)]

/-- `AdvancedMatchingService._calculate_composite_score`. -/
def calculate_composite_score (s : AdvScores) : ℚ :=
  SCORING_WEIGHTS.foldl (fun acc cw => acc + s.getComp cw.1 * cw.2) 0

/-- A result row of the advanced strategy. -/
structure AdvMatch where
  intent_id : String
  user_id : Option String
  user_name : String
  location_name : String
  raw_query : String
  category : String
  post_type : String
  score_semantic : ℚ
  score_location : ℚ
  score_parameters : ℚ
  score_price : ℚ
  composite_score : ℚ
  created_at : String
  parsed_data : Option ParsedData
deriving DecidableEq

/-- `AdvancedMatchingService._format_match_result`. -/
def format_match_result (c : Intent) (s : AdvScores) (comp : ℚ) : AdvMatch :=
  { intent_id := c.intent_id,
    user_id := c.user_id,
    user_name := c.users_name.getD "Unknown",
    location_name := c.location_name.getD "",
    raw_query := c.raw_query,
    category := c.category,
    post_type := c.post_type,
    score_semantic := round3 s.semantic_similarity,
    score_location := round3 s.location_proximity,
    score_parameters := round3 s.parameter_overlap,
    score_price := round3 s.price_tolerance,
    composite_score := round3 comp,
    created_at := c.created_at,
    parsed_data := c.parsed_data }

/-- The candidate-store predicate built by `find_advanced_matches`: active
rows, equal category when the query has one, and inverted-intent text match
(`raw_query ilike %opp%` or `parsed_data->>intent = opp`). -/
def advCandidateFilter (params : Params) (opp : String) (c : Intent) : Bool :=
  c.is_active &&
  (if truthy params.category then c.category == params.category.getD "" else true) &&
  (if opp.isEmpty then true
   else substrCI opp c.raw_query || (c.parsed_data.bind (fun p => p.intent)) == some opp)

/-- `AdvancedMatchingService.find_advanced_matches` on a fetched pool:
skip same-owner candidates, score (skipping candidates whose scoring
raised), keep composite ≥ 0.75, sort descending, return the top 7. -/
def find_advanced_matches
    (scorer : Intent → Intent → Params → Except String AdvScores)
    (q : Intent) (pool : List Intent) : List AdvMatch :=
  let params := extract_parameters q
  let opp := invertIntent params.intent
  let candidates := pool.filter (advCandidateFilter params opp)
  let scored := candidates.filterMap (fun c =>
    if c.user_id == q.user_id then none
    else
      match scorer q c params with
      | .error _ => none
      | .ok s =>
        let comp := calculate_composite_score s
        if comp ≥ 3/4 then some (format_match_result c s comp) else none)
  (sortByKeyDesc (fun r => r.composite_score) scored).take 7

/-! ## ML-feature strategy pieces (`MLMatchingService`) -/

/-- `MLMatchingService._compute_location_scores`' city grouping table,
in source (insertion) order. -/
def city_groups : List (String × List String) :=
  [("bangalore_metro", ["bangalore", "whitefield", "electronic city", "koramangala"]),
   ("mumbai_metro", ["mumbai", "pune", "thane", "navi mumbai"]),
   ("delhi_ncr", ["delhi", "gurgaon", "noida", "faridabad"]),
   ("hyderabad_metro", ["hyderabad", "secunderabad", "cyberabad"]),
   ("chennai_metro", ["chennai", "tambaram", "velachery"])]

/-- First metro group (in table order) one of whose city names occurs as a
substring of the (lowercased) location. -/
def findCityGroup (loc : String) : Option String :=
  (city_groups.find? (fun g => g.2.any (fun city => substrB city.data loc.data))).map
    (fun g => g.1)

/-- Per-candidate body of `_compute_location_scores` (both arguments already
lowercased): 1.0 on equality; else 0.8/0.3 by metro-group comparison when the
query is in a group; else 0.4. -/
def mlLocationScoreOne (userLoc matchLoc : String) : ℚ :=
  if userLoc = matchLoc then 1
  else
    match findCityGroup userLoc with
    | some g => if findCityGroup matchLoc == some g then 4/5 else 3/10
    | none => 2/5

/-- `MLMatchingService._compute_location_scores`. -/
def compute_location_scores (intent : Intent) (mts : List Intent) : List ℚ :=
  let u := lowerStr (intent.location_name.getD "")
  mts.map (fun mt => mlLocationScoreOne u (lowerStr (mt.location_name.getD "")))

/-- Python `len(s.split())`: number of maximal non-whitespace runs. -/
def pyWordCount (s : String) : ℕ :=
  ((s.data.splitOnP Char.isWhitespace).filter (fun w => !w.isEmpty)).length

/-- Python `s.count(c)`. -/
def countChar (c : Char) (s : String) : ℕ := s.data.count c

/-- `MLMatchingService._extract_feature_vector`: 4 text features, 3
parsed-data counts, 5 profile-feature slots (first five of
`user_features`, else of `business_features`, else five neutral 0.5), a
5-wide one-hot category encoding, padded with zeros / truncated to 20. -/
def extract_feature_vector (d : Intent) : List ℚ :=
  let text := d.raw_query
  let base : List ℚ := [(pyWordCount text : ℚ), (text.data.length : ℚ),
    (countChar '?' text : ℚ), (countChar '!' text : ℚ)]
  let parsedCounts : List ℚ :=
    match d.parsed_data with
    | some p => [(p.keywords.length : ℚ), (p.locations.length : ℚ), (p.prices.length : ℚ)]
    | none => [0, 0, 0]
  let profile : List ℚ :=
    match d.parsed_data with
    | some p =>
      match p.user_features with
      | some fs => fs.take 5
      | none =>
        match p.business_features with
        | some fs => fs.take 5
        | none => List.replicate 5 (1/2)
    | none => List.replicate 5 (1/2)
  let cats : List String := ["product", "service", "social", "travel", "general"]
  let onehot : List ℚ := cats.map (fun cat => if cat == d.category then 1 else 0)
  let fs := base ++ parsedCounts ++ profile ++ onehot
  (fs ++ List.replicate (20 - fs.length) 0).take 20

/-! ## Concrete fixtures (used by witnesses and counterexamples) -/

/-- A similarity oracle that always raises; fixtures below never reach it. -/
def simUnavailable : List ℚ → List ℚ → Except String ℚ := fun _ _ => Except.error "sim"

/-- Query intent owned by user `u1` (no embedding, no parsed data). -/
def qOwner : Intent :=
  { intent_id := "q1", user_id := some "u1", post_type := "demand",
    category := "product", raw_query := "looking for an apartment",
    location_name := some "mumbai" }

/-- Candidate owned by the same user `u1`, opposite post type, same
location. -/
def cOwner : Intent :=
  { intent_id := "c1", user_id := some "u1", post_type := "supply",
    category := "product", raw_query := "apartment available",
    location_name := some "mumbai" }

/-- Query intent in Mumbai with no embedding. -/
def qMetro : Intent :=
  { intent_id := "q7", user_id := some "u1", post_type := "demand",
    category := "product", raw_query := "looking for an apartment",
    location_name := some "mumbai" }

/-- Candidate in Delhi (unrelated metro, no shared words, no embedding),
owned by a different user. -/
def cMetro : Intent :=
  { intent_id := "c7", user_id := some "u2", post_type := "supply",
    category := "product", raw_query := "selling a car",
    location_name := some "delhi" }

/-- Advanced-strategy query fixture. -/
def qAdv : Intent :=
  { intent_id := "qa", user_id := some "ua", post_type := "demand",
    category := "product", raw_query := "looking for phone",
    location_name := some "mumbai" }

/-- Advanced-strategy candidate fixture (different owner, inverse intent
text). -/
def cAdv : Intent :=
  { intent_id := "ca", user_id := some "ub", post_type := "supply",
    category := "product", raw_query := "selling a phone",
    location_name := some "mumbai" }

/-- A component scorer granting full marks to every candidate. -/
def scorerOne : Intent → Intent → Params → Except String AdvScores :=
  fun _ _ _ => Except.ok
    { semantic_similarity := 1, location_proximity := 1,
      parameter_overlap := 1, price_tolerance := 1 }

/-- The full-marks component scores. -/
def advScoresOne : AdvScores :=
  { semantic_similarity := 1, location_proximity := 1,
    parameter_overlap := 1, price_tolerance := 1 }

/-!
# Theorems

General-purpose lemmas first, then one theorem per claim (with its witness
or counterexample where required).
-/

theorem normSq_nonneg (u : List ℚ) : 0 ≤ normSq u := by
  induction u with
  | nil => simp [normSq]
  | cons a l ih => simpa [normSq] using add_nonneg (mul_self_nonneg a) ih

/-- The source's zero-norm test `‖u‖ == 0` agrees with the embedded test
`normSq u = 0`. -/
theorem sqrt_normSq_eq_zero (u : List ℚ) :
    Real.sqrt (normSq u) = 0 ↔ (normSq u : ℚ) = 0 := by
  rw [Real.sqrt_eq_zero']
  constructor
  · intro h
    exact_mod_cast le_antisymm (by exact_mod_cast h) (normSq_nonneg u)
  · intro h
    rw [h]
    simp

theorem mem_orderedInsertDesc {α : Type} (key : α → ℚ) (a x : α) (l : List α) :
    x ∈ orderedInsertDesc key a l ↔ x = a ∨ x ∈ l := by
  induction l with
  | nil => simp [orderedInsertDesc]
  | cons b t ih =>
    by_cases h : key b ≤ key a
    · simp [orderedInsertDesc, h]
    · simp [orderedInsertDesc, h, ih]
      tauto

theorem pairwise_orderedInsertDesc {α : Type} (key : α → ℚ) (a : α) (l : List α)
    (h : l.Pairwise (fun x y => key y ≤ key x)) :
    (orderedInsertDesc key a l).Pairwise (fun x y => key y ≤ key x) := by
  induction l with
  | nil => simp [orderedInsertDesc]
  | cons b t ih =>
    rcases List.pairwise_cons.mp h with ⟨hb, ht⟩
    by_cases hba : key b ≤ key a
    · rw [orderedInsertDesc, if_pos hba]
      refine List.pairwise_cons.mpr ⟨?_, h⟩
      intro x hx
      rcases List.mem_cons.mp hx with rfl | hx
      · exact hba
      · exact le_trans (hb x hx) hba
    · rw [orderedInsertDesc, if_neg hba]
      refine List.pairwise_cons.mpr ⟨?_, ih ht⟩
      intro x hx
      rcases (mem_orderedInsertDesc key a x t).mp hx with rfl | hx
      · exact le_of_lt (lt_of_not_le hba)
      · exact hb x hx

theorem mem_sortByKeyDesc {α : Type} (key : α → ℚ) (x : α) (l : List α) :
    x ∈ sortByKeyDesc key l ↔ x ∈ l := by
  induction l with
  | nil => simp [sortByKeyDesc]
  | cons b t ih =>
    simp only [sortByKeyDesc, List.foldr_cons] at *
    rw [mem_orderedInsertDesc, ih]
    simp

theorem pairwise_sortByKeyDesc {α : Type} (key : α → ℚ) (l : List α) :
    (sortByKeyDesc key l).Pairwise (fun x y => key y ≤ key x) := by
  induction l with
  | nil => simp [sortByKeyDesc]
  | cons b t ih =>
    simpa only [sortByKeyDesc, List.foldr_cons] using
      pairwise_orderedInsertDesc key b _ ih

/-! ### C4 — price parsing (code bug) -/

unseal Rat.add Rat.mul Rat.inv Rat.sub ProApp.stripPrice in
/-- C4: the claim says `"50k"` parses to 50 000 and `"2 lakh"` to 200 000;
the code strips the unit words before testing for them (the stripped string
is re-bound to `price_str`), so the multiplier is never applied: `"50k"`
parses to 50 and `"2 lakh"` to 2. -/
theorem C4_price_parse_no_scaling :
    extract_price_value "50k" = some 50 ∧ extract_price_value "2 lakh" = some 2 := by
  decide

/-! ### C2 — fallback chain of the orchestrator (confirmed) -/

/-- C2: the orchestrator tries the advanced matcher, on exception the
ML-feature matcher, on exception the basic matcher; the basic matcher is a
total function of its inputs for every per-candidate similarity oracle
(per-candidate errors are skipped), so the caller always receives a
(possibly empty) list and never a scoring-pipeline exception. -/
theorem C2_fallback_chain (adv ml : Except String (List BasicMatch))
    (sim : List ℚ → List ℚ → Except String ℚ) (q : Intent) (pool : List Intent) :
    (∃ l, getMatchesForIntent adv ml (find_matches sim q pool) = Except.ok l) ∧
    (∀ l, adv = Except.ok l →
      getMatchesForIntent adv ml (find_matches sim q pool) = Except.ok l) ∧
    (∀ e l, adv = Except.error e → ml = Except.ok l →
      getMatchesForIntent adv ml (find_matches sim q pool) = Except.ok l) ∧
    (∀ e f, adv = Except.error e → ml = Except.error f →
      getMatchesForIntent adv ml (find_matches sim q pool) =
        Except.ok (find_matches sim q pool)) := by
  refine ⟨?_, ?_, ?_, ?_⟩
  · cases adv with
    | ok l => exact ⟨l, rfl⟩
    | error e =>
      cases ml with
      | ok l => exact ⟨l, rfl⟩
      | error f => exact ⟨find_matches sim q pool, rfl⟩
  · intro l hl
    subst hl
    rfl
  · intro e l ha hm
    subst ha
    subst hm
    rfl
  · intro e f ha hm
    subst ha
    subst hm
    rfl

/-- C2 witness: with both the advanced and ML matchers failing, the caller
receives the basic matcher's (total) result as an ordinary list. -/
theorem C2_fallback_chain_witness :
    getMatchesForIntent (Except.error "advanced down") (Except.error "ml down")
        (find_matches simUnavailable qMetro []) =
      Except.ok (find_matches simUnavailable qMetro []) :=
  (C2_fallback_chain (Except.error "advanced down") (Except.error "ml down")
    simUnavailable qMetro []).2.2.2 "advanced down" "ml down" rfl rfl

/-! ### C1 — same-owner exclusion (corrected: only the advanced strategy
excludes the owner) -/

unseal Rat.add Rat.mul Rat.inv Rat.sub in
/-- C1 counterexample: the basic strategy has no owner filter — a candidate
with the same owner identifier as the query appears in its output. -/
theorem C1_basic_returns_same_owner :
    cOwner.user_id = qOwner.user_id ∧
    (find_matches simUnavailable qOwner [cOwner]).map (fun r => r.intent_id) =
      [cOwner.intent_id] := by
  decide

/-- C1 amended: only the advanced strategy skips candidates whose owner
identifier equals the query's; every row it returns carries an owner
identifier different from the query's.  (The ML-feature and basic
strategies do not filter by owner, see the counterexample.) -/
theorem C1_advanced_excludes_owner
    (scorer : Intent → Intent → Params → Except String AdvScores)
    (q : Intent) (pool : List Intent) :
    ∀ r ∈ find_advanced_matches scorer q pool, r.user_id ≠ q.user_id := by
  intro r hr
  have hr' : r ∈ sortByKeyDesc (fun r => r.composite_score)
      ((pool.filter (advCandidateFilter (extract_parameters q)
        (invertIntent (extract_parameters q).intent))).filterMap (fun c =>
        if c.user_id == q.user_id then none
        else
          match scorer q c (extract_parameters q) with
          | .error _ => none
          | .ok s =>
            let comp := calculate_composite_score s
            if comp ≥ 3/4 then some (format_match_result c s comp) else none)) := by
    simpa [find_advanced_matches] using List.mem_of_mem_take hr
  rw [mem_sortByKeyDesc] at hr'
  rcases List.mem_filterMap.mp hr' with ⟨c, _, hc⟩
  by_cases hid : c.user_id == q.user_id
  · simp [hid] at hc
  · simp only [hid, Bool.false_eq_true, if_false] at hc
    cases hsc : scorer q c (extract_parameters q) with
    | error e => simp [hsc] at hc
    | ok s =>
      simp only [hsc] at hc
      by_cases hcomp : calculate_composite_score s ≥ 3/4
      · simp only [hcomp, if_true] at hc
        have hrc : format_match_result c s (calculate_composite_score s) = r :=
          Option.some.inj hc
        have : r.user_id = c.user_id := by
          rw [← hrc]
          rfl
        rw [this]
        simpa using hid
      · simp [hcomp] at hc

unseal Rat.add Rat.mul Rat.inv Rat.sub in
/-- C1 witness: the advanced strategy returns the full-marks candidate
`cAdv`, whose owner differs from the query's. -/
theorem C1_advanced_excludes_owner_witness :
    (format_match_result cAdv advScoresOne
        (calculate_composite_score advScoresOne)).user_id ≠ qAdv.user_id :=
  C1_advanced_excludes_owner scorerOne qAdv [cAdv]
    (format_match_result cAdv advScoresOne (calculate_composite_score advScoresOne))
    (by decide)

/-! ### C7 — basic strategy on unrelated metros (corrected: missing
embeddings default the similarity to 0.5, which passes the threshold) -/

unseal Rat.add Rat.mul Rat.inv Rat.sub in
/-- C7 counterexample: query and candidate from different, unrelated metro
areas with no shared keywords and no embeddings on either side — the
default similarity 0.5 gives a combined score of 0.41 > 0.30, so the basic
strategy returns the candidate, contrary to the claim. -/
theorem C7_basic_unrelated_metro_included :
    (find_matches simUnavailable qMetro [cMetro]).map
        (fun r => (r.intent_id, r.combined_score)) = [("c7", 41/100)] := by
  decide

/-! ### C3 — advanced strategy composite scoring (confirmed) -/

/-- C3: the advanced composite score is
0.40·semantic + 0.20·location + 0.30·parameters + 0.10·price; only
candidates whose composite reaches 0.75 are kept (their rows record the
rounded composite), rows are sorted by composite score descending, and at
most 7 are returned — for every possible component scorer. -/
theorem C3_advanced_composite
    (scorer : Intent → Intent → Params → Except String AdvScores)
    (q : Intent) (pool : List Intent) :
    (∀ s : AdvScores, calculate_composite_score s =
      (2/5) * s.semantic_similarity + (1/5) * s.location_proximity +
      (3/10) * s.parameter_overlap + (1/10) * s.price_tolerance) ∧
    (find_advanced_matches scorer q pool).length ≤ 7 ∧
    (find_advanced_matches scorer q pool).Pairwise
      (fun a b => b.composite_score ≤ a.composite_score) ∧
    (∀ r ∈ find_advanced_matches scorer q pool, ∃ c ∈ pool, ∃ s : AdvScores,
      scorer q c (extract_parameters q) = Except.ok s ∧
      3/4 ≤ calculate_composite_score s ∧
      r = format_match_result c s (calculate_composite_score s)) := by
  refine ⟨?_, ?_, ?_, ?_⟩
  · intro s
    simp [calculate_composite_score, SCORING_WEIGHTS, AdvScores.getComp]
    ring
  · simp only [find_advanced_matches]
    exact List.length_take_le 7 _
  · simp only [find_advanced_matches]
    exact List.Pairwise.sublist (List.take_sublist 7 _) (pairwise_sortByKeyDesc _ _)
  · intro r hr
    have hr' : r ∈ sortByKeyDesc (fun r => r.composite_score)
        ((pool.filter (advCandidateFilter (extract_parameters q)
          (invertIntent (extract_parameters q).intent))).filterMap (fun c =>
          if c.user_id == q.user_id then none
          else
            match scorer q c (extract_parameters q) with
            | .error _ => none
            | .ok s =>
              let comp := calculate_composite_score s
              if comp ≥ 3/4 then some (format_match_result c s comp) else none)) := by
      simpa [find_advanced_matches] using List.mem_of_mem_take hr
    rw [mem_sortByKeyDesc] at hr'
    rcases List.mem_filterMap.mp hr' with ⟨c, hcmem, hc⟩
    refine ⟨c, List.mem_of_mem_filter hcmem, ?_⟩
    by_cases hid : c.user_id == q.user_id
    · simp [hid] at hc
    · simp only [hid, Bool.false_eq_true, if_false] at hc
      cases hsc : scorer q c (extract_parameters q) with
      | error e => simp [hsc] at hc
      | ok s =>
        simp only [hsc] at hc
        by_cases hcomp : calculate_composite_score s ≥ 3/4
        · simp only [hcomp, if_true] at hc
          exact ⟨s, rfl, hcomp, (Option.some.inj hc).symm⟩
        · simp [hcomp] at hc

unseal Rat.add Rat.mul Rat.inv Rat.sub in
/-- C3 witness: the full-marks candidate `cAdv` (composite exactly 1 ≥ 0.75)
is accounted for by a pool candidate, an accepted composite, and the
formatted row. -/
theorem C3_advanced_composite_witness :
    ∃ c ∈ [cAdv], ∃ s : AdvScores,
      scorerOne qAdv c (extract_parameters qAdv) = Except.ok s ∧
      3/4 ≤ calculate_composite_score s ∧
      format_match_result cAdv advScoresOne (calculate_composite_score advScoresOne) =
        format_match_result c s (calculate_composite_score s) :=
  (C3_advanced_composite scorerOne qAdv [cAdv]).2.2.2
    (format_match_result cAdv advScoresOne (calculate_composite_score advScoresOne))
    (by decide)

/-! ### C10 — ML-feature strategy location scores (confirmed) -/

/-- C10: each ML-strategy location score is exactly one of 1.0 (equal
lowercased names, including both empty), 0.8 (same metro group), 0.3 (query
grouped, candidate not in the same group) or 0.4 (query ungrouped, names
differ); in particular the name-mode values 0.6 and 0.5 never occur. -/
theorem C10_ml_location_scores (intent : Intent) (mts : List Intent)
    (mt : Intent) (hmt : mt ∈ mts) (u m : String)
    (hu : u = lowerStr (intent.location_name.getD ""))
    (hm : m = lowerStr (mt.location_name.getD "")) :
    mlLocationScoreOne u m ∈ compute_location_scores intent mts ∧
    (u = m → mlLocationScoreOne u m = 1) ∧
    (u ≠ m → ∀ g, findCityGroup u = some g → findCityGroup m = some g →
      mlLocationScoreOne u m = 4/5) ∧
    (u ≠ m → ∀ g, findCityGroup u = some g → findCityGroup m ≠ some g →
      mlLocationScoreOne u m = 3/10) ∧
    (u ≠ m → findCityGroup u = none → mlLocationScoreOne u m = 2/5) ∧
    (mlLocationScoreOne u m = 1 ∨ mlLocationScoreOne u m = 4/5 ∨
      mlLocationScoreOne u m = 3/10 ∨ mlLocationScoreOne u m = 2/5) ∧
    mlLocationScoreOne u m ≠ 3/5 ∧ mlLocationScoreOne u m ≠ 1/2 := by
  subst hu
  subst hm
  have hval : mlLocationScoreOne (lowerStr (intent.location_name.getD ""))
      (lowerStr (mt.location_name.getD "")) = 1 ∨
      mlLocationScoreOne (lowerStr (intent.location_name.getD ""))
      (lowerStr (mt.location_name.getD "")) = 4/5 ∨
      mlLocationScoreOne (lowerStr (intent.location_name.getD ""))
      (lowerStr (mt.location_name.getD "")) = 3/10 ∨
      mlLocationScoreOne (lowerStr (intent.location_name.getD ""))
      (lowerStr (mt.location_name.getD "")) = 2/5 := by
    by_cases h : lowerStr (intent.location_name.getD "") =
        lowerStr (mt.location_name.getD "")
    · left
      simp [mlLocationScoreOne, h]
    · cases hg : findCityGroup (lowerStr (intent.location_name.getD "")) with
      | none =>
        right; right; right
        simp [mlLocationScoreOne, h, hg]
      | some g =>
        by_cases h2 : findCityGroup (lowerStr (mt.location_name.getD "")) = some g
        · right; left
          simp [mlLocationScoreOne, h, hg, h2]
        · right; right; left
          simp [mlLocationScoreOne, h, hg, h2]
  refine ⟨?_, ?_, ?_, ?_, ?_, hval, ?_, ?_⟩
  · simp only [compute_location_scores]
    exact List.mem_map_of_mem _ hmt
  · intro h
    simp [mlLocationScoreOne, h]
  · intro hne g hg1 hg2
    simp [mlLocationScoreOne, hne, hg1, hg2]
  · intro hne g hg1 hg2
    simp [mlLocationScoreOne, hne, hg1, hg2]
  · intro hne hg
    simp [mlLocationScoreOne, hne, hg]
  · rcases hval with h | h | h | h <;> rw [h] <;> norm_num
  · rcases hval with h | h | h | h <;> rw [h] <;> norm_num

/-- C10 witness: Mumbai vs Delhi — the query is in a metro group, the
candidate is not in the same one, so the score is the grouped-mismatch 0.3,
and it is an entry of the strategy's score list. -/
theorem C10_ml_location_scores_witness :
    mlLocationScoreOne "mumbai" "delhi" ∈ compute_location_scores qMetro [cMetro] ∧
    mlLocationScoreOne "mumbai" "delhi" = 3/10 :=
  ⟨(C10_ml_location_scores qMetro [cMetro] cMetro (by decide) "mumbai" "delhi"
      (by decide) (by decide)).1,
   (C10_ml_location_scores qMetro [cMetro] cMetro (by decide) "mumbai" "delhi"
      (by decide) (by decide)).2.2.2.1 (by decide) "mumbai_metro" (by decide) (by decide)⟩

/-! ### C8 — parameter overlap bounds (confirmed) -/

theorem matchAward_nonneg (key : String) (w : ℚ) (uv mv : String) (hw : 0 ≤ w) :
    0 ≤ matchAward key w uv mv := by
  unfold matchAward
  by_cases h1 : lowerStr uv = lowerStr mv
  · simpa [h1] using hw
  · rw [if_neg h1]
    by_cases h2 : key = "year"
    · rw [if_pos h2]
      cases parsePyInt uv with
      | none => simp
      | some a =>
        cases parsePyInt mv with
        | none => simp
        | some b =>
          simp only
          split
          · positivity
          · exact le_refl 0
    · rw [if_neg h2]
      split
      · positivity
      · exact le_refl 0

theorem matchAward_le (key : String) (w : ℚ) (uv mv : String) (hw : 0 ≤ w) :
    matchAward key w uv mv ≤ w := by
  unfold matchAward
  by_cases h1 : lowerStr uv = lowerStr mv
  · simp [h1]
  · rw [if_neg h1]
    by_cases h2 : key = "year"
    · rw [if_pos h2]
      cases parsePyInt uv with
      | none => simpa using hw
      | some a =>
        cases parsePyInt mv with
        | none => simpa using hw
        | some b =>
          simp only
          split
          · linarith
          · exact hw
    · rw [if_neg h2]
      split
      · linarith
      · exact hw

theorem overlap_foldl_bounds (up mp : Params) (L : List (String × ℚ))
    (hw : ∀ pw ∈ L, 0 ≤ pw.2) :
    ∀ acc : ℚ × ℚ, 0 ≤ acc.1 → acc.1 ≤ acc.2 →
      0 ≤ (L.foldl (overlapStep up mp) acc).1 ∧
      (L.foldl (overlapStep up mp) acc).1 ≤ (L.foldl (overlapStep up mp) acc).2 := by
  induction L with
  | nil =>
    intro acc h1 h2
    exact ⟨h1, h2⟩
  | cons pw t ih =>
    intro acc h1 h2
    simp only [List.foldl_cons]
    have hwpw : 0 ≤ pw.2 := hw pw (List.mem_cons_self _ _)
    apply ih (fun x hx => hw x (List.mem_cons_of_mem _ hx))
    · simp only [overlapStep]
      split
      · exact add_nonneg h1 (matchAward_nonneg _ _ _ _ hwpw)
      · exact h1
    · simp only [overlapStep]
      split
      · exact add_le_add h2 (matchAward_le _ _ _ _ hwpw)
      · exact h2

theorem overlap_foldl_no_pairs (up mp : Params) (L : List (String × ℚ))
    (h : ∀ pw ∈ L, ¬(truthy (up.getAttr pw.1) = true ∧ truthy (mp.getAttr pw.1) = true)) :
    ∀ acc : ℚ × ℚ, L.foldl (overlapStep up mp) acc = acc := by
  induction L with
  | nil =>
    intro acc
    rfl
  | cons pw t ih =>
    intro acc
    simp only [List.foldl_cons]
    have hpw := h pw (List.mem_cons_self _ _)
    have hstep : overlapStep up mp acc pw = acc := by
      simp only [overlapStep]
      rw [if_neg]
      intro hb
      exact hpw (by simpa using hb)
    rw [hstep]
    exact ih (fun x hx => h x (List.mem_cons_of_mem _ hx)) acc

/-- C8: for every pair of parameter sets, the overlap score lies in `[0, 1]`,
and it is exactly the neutral 0.5 when no attribute is truthy on both
sides. -/
theorem C8_parameter_overlap_bounds (up mp : Params) :
    0 ≤ calculate_parameter_overlap up mp ∧
    calculate_parameter_overlap up mp ≤ 1 ∧
    ((∀ pw ∈ param_weights,
        ¬(truthy (up.getAttr pw.1) = true ∧ truthy (mp.getAttr pw.1) = true)) →
      calculate_parameter_overlap up mp = 1/2) := by
  have hw : ∀ pw ∈ param_weights, (0:ℚ) ≤ pw.2 := by
    intro pw hpw
    simp only [param_weights, List.mem_cons, List.not_mem_nil, or_false] at hpw
    rcases hpw with h | h | h | h | h | h <;> rw [h] <;> norm_num
  have hb := overlap_foldl_bounds up mp param_weights hw (0, 0) le_rfl le_rfl
  refine ⟨?_, ?_, ?_⟩
  · simp only [calculate_parameter_overlap]
    split
    · exact div_nonneg hb.1 (le_of_lt (by assumption))
    · norm_num
  · simp only [calculate_parameter_overlap]
    split
    · exact (div_le_one (by assumption)).mpr hb.2
    · norm_num
  · intro h
    simp only [calculate_parameter_overlap]
    rw [overlap_foldl_no_pairs up mp param_weights h (0, 0)]
    norm_num

/-- C8 witness: two empty parameter sets have no comparable attribute and
score the neutral 0.5, which lies in `[0, 1]`. -/
theorem C8_parameter_overlap_bounds_witness :
    calculate_parameter_overlap {} {} = 1/2 ∧
    0 ≤ calculate_parameter_overlap {} {} :=
  ⟨(C8_parameter_overlap_bounds {} {}).2.2 (by decide),
   (C8_parameter_overlap_bounds {} {}).1⟩

/-! ### C9 — ML feature vector shape and neutral defaults (confirmed) -/

theorem padTake20_length (l : List ℚ) :
    ((l ++ List.replicate (20 - l.length) 0).take 20).length = 20 := by
  simp [List.length_take]
  omega

/-- C9: the feature extractor always returns exactly 20 entries, and when
neither `user_features` nor `business_features` is supplied, the five
profile-feature slots (positions 7–11) are all the neutral 0.5. -/
theorem C9_feature_vector (d : Intent) :
    (extract_feature_vector d).length = 20 ∧
    ((∀ p, d.parsed_data = some p →
        p.user_features = none ∧ p.business_features = none) →
      ((extract_feature_vector d).drop 7).take 5 = List.replicate 5 (1/2)) := by
  constructor
  · simp only [extract_feature_vector]
    exact padTake20_length _
  · intro h
    cases hd : d.parsed_data with
    | none =>
      simp [extract_feature_vector, hd, List.replicate]
    | some p =>
      rcases h p hd with ⟨huf, hbf⟩
      simp [extract_feature_vector, hd, huf, hbf, List.replicate]

/-- C9 witness: the Mumbai query fixture (no parsed data) yields a
20-entry vector whose profile slots are all 0.5. -/
theorem C9_feature_vector_witness :
    (extract_feature_vector qMetro).length = 20 ∧
    ((extract_feature_vector qMetro).drop 7).take 5 = List.replicate 5 (1/2) :=
  ⟨(C9_feature_vector qMetro).1,
   (C9_feature_vector qMetro).2 (by intro p h; simp [qMetro] at h)⟩

/-! ### C5 — price tolerance score (confirmed) -/

unseal ProApp.stripPrice in
theorem extract_price_value_empty : extract_price_value "" = none := by decide

/-- C5: with both sides resolving to parseable positive prices, the score is
the tolerance core: 1.0 on identical prices, `1 − diff/tolerance` inside the
10% band, `max(0, 1 − diff/(0.5·query price))` beyond it; it is never
negative and decreases strictly in the difference beyond the band while it
is still positive. -/
theorem C5_price_tolerance (up mp : Params) (us ms : String) (u m : ℚ)
    (hu : pyOrStr up.price up.budget = some us)
    (hm : pyOrStr mp.price mp.budget = some ms)
    (hpu : extract_price_value us = some u)
    (hpm : extract_price_value ms = some m)
    (hu0 : 0 < u) (hm0 : 0 < m) :
    calculate_price_tolerance up mp = priceToleranceCore u m ∧
    priceToleranceCore u u = 1 ∧
    (|u - m| ≤ u/10 → priceToleranceCore u m = 1 - |u - m| / (u/10)) ∧
    (u/10 < |u - m| → priceToleranceCore u m = max 0 (1 - |u - m| / (u/2))) ∧
    0 ≤ priceToleranceCore u m ∧
    (∀ m1 m2 : ℚ, u/10 < |u - m1| → |u - m1| < |u - m2| →
      0 < priceToleranceCore u m2 →
      priceToleranceCore u m2 < priceToleranceCore u m1) := by
  have hus : us ≠ "" := by
    intro h
    rw [h, extract_price_value_empty] at hpu
    exact Option.noConfusion hpu
  have hms : ms ≠ "" := by
    intro h
    rw [h, extract_price_value_empty] at hpm
    exact Option.noConfusion hpm
  have htol : (0:ℚ) < u * (1/10) := mul_pos hu0 (by norm_num)
  have hhalf : (0:ℚ) < u * (1/2) := mul_pos hu0 (by norm_num)
  have hten : u * (1/10) = u/10 := by ring
  have htwo : u * (1/2) = u/2 := by ring
  refine ⟨?_, ?_, ?_, ?_, ?_, ?_⟩
  · simp only [calculate_price_tolerance, hu, hm]
    rw [if_neg (by simp [String.isEmpty_iff, hus, hms])]
    simp only [hpu, hpm]
    rw [if_pos ⟨ne_of_gt hu0, ne_of_gt hm0⟩]
  · simp only [priceToleranceCore, sub_self, abs_zero]
    rw [if_pos htol.le]
    simp
  · intro hband
    simp only [priceToleranceCore]
    rw [if_pos (by rw [hten]; exact hband), hten]
  · intro hout
    simp only [priceToleranceCore]
    rw [if_neg (by rw [hten]; exact not_le.mpr hout), htwo]
  · by_cases hb : |u - m| ≤ u * (1/10)
    · simp only [priceToleranceCore]
      rw [if_pos hb]
      have : |u - m| / (u * (1/10)) ≤ 1 := (div_le_one htol).mpr hb
      linarith
    · simp only [priceToleranceCore]
      rw [if_neg hb]
      exact le_max_left 0 _
  · intro m1 m2 h1 h12 hpos
    have hd1 : ¬(|u - m1| ≤ u * (1/10)) := by
      rw [hten]
      exact not_le.mpr h1
    have hd2 : ¬(|u - m2| ≤ u * (1/10)) := by
      rw [hten]
      exact not_le.mpr (lt_trans h1 h12)
    simp only [priceToleranceCore] at hpos ⊢
    rw [if_neg hd2] at hpos ⊢
    rw [if_neg hd1]
    have hx2 : 0 < 1 - |u - m2| / (u * (1/2)) := by
      rcases lt_max_iff.mp hpos with h | h
      · exact absurd h (lt_irrefl 0)
      · exact h
    have hmono : |u - m1| / (u * (1/2)) < |u - m2| / (u * (1/2)) := by
      gcongr
    rw [max_eq_right hx2.le]
    exact lt_of_lt_of_le (by linarith) (le_max_right 0 _)

unseal Rat.add Rat.mul Rat.inv Rat.sub ProApp.stripPrice in
/-- C5 witness: prices 100 and 105 resolve through the full function to the
tolerance core, and identical prices score exactly 1. -/
theorem C5_price_tolerance_witness :
    calculate_price_tolerance { price := some "100" } { price := some "105" } =
      priceToleranceCore 100 105 ∧
    priceToleranceCore 100 100 = 1 :=
  ⟨(C5_price_tolerance { price := some "100" } { price := some "105" } "100" "105"
      100 105 (by decide) (by decide) (by decide) (by decide)
      (by norm_num) (by norm_num)).1,
   (C5_price_tolerance { price := some "100" } { price := some "105" } "100" "105"
      100 105 (by decide) (by decide) (by decide) (by decide)
      (by norm_num) (by norm_num)).2.1⟩

/-! ### C6 — embedding similarity (corrected: the numpy branch raises on
mismatched lengths; only the pure-Python fallback returns 0.0) -/

/-- C6 counterexample: with numpy available (the primary path), mismatched
vector lengths raise (`np.dot` shape error, not caught — only `ImportError`
is), contradicting the claim that the function returns 0.0 and does not
raise on mismatched lengths. -/
theorem C6_numpy_mismatch_raises :
    compute_similarity true [(1:ℚ)] [1, 2] = Except.error "shapes not aligned" := by
  norm_num [compute_similarity, compute_similarity_numpy]

/-- C6 amended: the pure-Python fallback branch (numpy unavailable) returns
`dot(u,v)/(‖u‖·‖v‖)` and exactly 0.0 whenever either vector is absent
(empty), all-zero, or the lengths mismatch, and never raises; the numpy
branch agrees whenever the lengths match, but raises on mismatched
lengths. -/
theorem C6_similarity_contract (u v : List ℚ) :
    compute_similarity false u v = Except.ok (compute_similarity_fb u v) ∧
    (u.length ≠ v.length → compute_similarity_fb u v = 0) ∧
    (normSq u = 0 ∨ normSq v = 0 → compute_similarity_fb u v = 0) ∧
    ((u = [] ∨ v = []) → compute_similarity_fb u v = 0) ∧
    (u.length = v.length → normSq u ≠ 0 → normSq v ≠ 0 →
      compute_similarity_fb u v =
        (dotQ u v : ℝ) / (Real.sqrt (normSq u) * Real.sqrt (normSq v))) ∧
    (u.length = v.length →
      compute_similarity true u v = Except.ok (compute_similarity_fb u v)) := by
  have hzero : normSq u = 0 ∨ normSq v = 0 → compute_similarity_fb u v = 0 := by
    intro h
    simp only [compute_similarity_fb]
    by_cases hl : u.length ≠ v.length
    · rw [if_pos hl]
    · rw [if_neg hl, if_pos h]
  refine ⟨rfl, ?_, hzero, ?_, ?_, ?_⟩
  · intro h
    simp only [compute_similarity_fb]
    rw [if_pos h]
  · intro h
    apply hzero
    rcases h with rfl | rfl
    · left
      rfl
    · right
      rfl
  · intro hl h1 h2
    simp only [compute_similarity_fb]
    rw [if_neg (by simp [hl]), if_neg (by rintro (h | h) <;> [exact h1 h; exact h2 h])]
    rfl
  · intro hl
    have h1 : compute_similarity true u v = compute_similarity_numpy u v := rfl
    have hfb : compute_similarity_fb u v =
        if normSq u = 0 ∨ normSq v = 0 then 0 else cosineSim u v := by
      simp only [compute_similarity_fb]
      rw [if_neg (by simp [hl])]
    have hnp : compute_similarity_numpy u v =
        if normSq u = 0 ∨ normSq v = 0 then Except.ok 0
        else Except.ok (cosineSim u v) := by
      simp only [compute_similarity_numpy]
      rw [if_neg (by simp [hl])]
    rw [h1, hnp, hfb]
    by_cases hz : normSq u = 0 ∨ normSq v = 0
    · rw [if_pos hz, if_pos hz]
    · rw [if_neg hz, if_neg hz]

/-- C6 witness: equal-length nonzero vectors get the cosine formula in the
fallback branch. -/
theorem C6_similarity_contract_witness :
    compute_similarity_fb [1] [1] =
      (dotQ [1] [1] : ℝ) / (Real.sqrt (normSq [1]) * Real.sqrt (normSq [1])) :=
  (C6_similarity_contract [1] [1]).2.2.2.2.1 rfl
    (by norm_num [normSq]) (by norm_num [normSq])

/-! ### C7 amended — the basic strategy's threshold with unrelated
locations -/

unseal Rat.add Rat.mul Rat.inv Rat.sub in
theorem round3_basic_default : round3 (1/2 * (7/10) + 1/5 * (3/10)) = 41/100 := by
  decide

/-- C7 amended: for a candidate from a different, unrelated location
(names truthy, unequal, not substrings of each other), the basic strategy's
combined score is 0.7·similarity + 0.06.  When both sides carry embeddings
and the computed similarity is at most 12/35 (combined ≤ 0.30), the
candidate is rejected; but when either side lacks an embedding the default
similarity 0.5 yields combined 0.41 > 0.30 and the candidate IS returned —
the original claim fails exactly in the missing-embedding case. -/
theorem C7_basic_threshold (sim : List ℚ → List ℚ → Except String ℚ)
    (q c : Intent) (s : ℚ)
    (hpt : c.post_type = oppositePostType q.post_type)
    (hcat : c.category = q.category)
    (hact : c.is_active = true)
    (huln : (q.location_name.getD "").isEmpty = false)
    (hcln : truthy c.location_name = true)
    (hne : lowerStr (q.location_name.getD "") ≠ lowerStr (c.location_name.getD ""))
    (hs1 : substrB (lowerStr (q.location_name.getD "")).data
      (lowerStr (c.location_name.getD "")).data = false)
    (hs2 : substrB (lowerStr (c.location_name.getD "")).data
      (lowerStr (q.location_name.getD "")).data = false) :
    (((resolveEmbedding q).isEmpty = true ∨ (resolveEmbedding c).isEmpty = true) →
      (find_matches sim q [c]).map (fun r => r.combined_score) = [41/100]) ∧
    ((resolveEmbedding q).isEmpty = false → (resolveEmbedding c).isEmpty = false →
      sim (resolveEmbedding q) (resolveEmbedding c) = Except.ok s →
      s ≤ 12/35 →
      find_matches sim q [c] = []) := by
  have hfilter : List.filter
      (fun c' => c'.post_type == oppositePostType q.post_type &&
        c'.category == q.category && c'.is_active) [c] = [c] := by
    simp [List.filter_cons, hpt, hcat, hact]
  have hloccond : (!(q.location_name.getD "").isEmpty && truthy c.location_name) = true := by
    rw [huln, hcln]
    rfl
  have hsubs : (substrB (lowerStr (q.location_name.getD "")).data
      (lowerStr (c.location_name.getD "")).data ||
      substrB (lowerStr (c.location_name.getD "")).data
      (lowerStr (q.location_name.getD "")).data) = false := by
    rw [hs1, hs2]
    rfl
  constructor
  · intro hemb
    have hcond : (!(resolveEmbedding q).isEmpty && !(resolveEmbedding c).isEmpty) = false := by
      rcases hemb with h | h <;> simp [h]
    have hsc : scoreBasicCandidate sim (resolveEmbedding q) (q.location_name.getD "") c =
        Except.ok (some
          { intent_id := c.intent_id,
            user_name := c.users_name.getD "Unknown",
            location_name := c.location_name.getD "",
            raw_query := c.raw_query,
            category := c.category,
            post_type := c.post_type,
            similarity := round3 (1/2),
            distance_km := round2 20,
            combined_score := round3 (1/2 * (7/10) + 1/5 * (3/10)),
            created_at := c.created_at }) := by
      simp only [scoreBasicCandidate, hcond, Bool.false_eq_true, if_false, pure_bind,
        hloccond, if_true]
      rw [if_neg hne]
      simp only [hsubs, Bool.false_eq_true, if_false]
      rw [if_pos (by norm_num : (1:ℚ)/2 * (7/10) + (1/5 : ℚ) * (3/10) > 3/10)]
      rfl
    simp only [find_matches, hfilter, List.filterMap_cons, hsc, List.filterMap_nil]
    rw [round3_basic_default]
    rfl
  · intro h1 h2 hsim hs
    have hcond : (!(resolveEmbedding q).isEmpty && !(resolveEmbedding c).isEmpty) = true := by
      rw [h1, h2]
      rfl
    have hsc : scoreBasicCandidate sim (resolveEmbedding q) (q.location_name.getD "") c =
        Except.ok none := by
      simp only [scoreBasicCandidate, hcond, if_true, hsim, Bind.bind, Except.bind,
        hloccond]
      rw [if_neg hne]
      simp only [hsubs, Bool.false_eq_true, if_false]
      rw [if_neg (by nlinarith : ¬(s * (7/10) + (1/5 : ℚ) * (3/10) > 3/10))]
      rfl
    simp only [find_matches, hfilter, List.filterMap_cons, hsc, List.filterMap_nil]
    rfl

/-- C7 amended witness: Mumbai query vs Delhi candidate with no embeddings —
the combined score of the single returned row is exactly 0.41. -/
theorem C7_basic_threshold_witness :
    (find_matches simUnavailable qMetro [cMetro]).map (fun r => r.combined_score) =
      [41/100] :=
  (C7_basic_threshold simUnavailable qMetro cMetro 0 (by decide) (by decide)
    (by decide) (by decide) (by decide) (by decide) (by decide) (by decide)).1
    (Or.inl (by decide))

end ProApp
